import Mathlib

/-!
Shallow embedding of the gbrust Game Boy (SM83/LR35902) CPU core.

The file embeds `src/gameboy/cpu/cpu.rs` (the CPU engine: `OpOk`, `CPU::new`,
`CPU::peek_next_instr`, `CPU::step`, `CPU::get_cycles`, the implemented
executors `op_ld`, `op_xor`, `op_invalid`, and the `todo!()` executors).
The collaborating modules (`regs.rs`, `instruction.rs`, `bus.rs`,
`testbus.rs`) are not part of the sources; their behaviour is modelled from
the specification, and each such definition carries a doc comment starting
with `Modelled from the spec:`.

Machine integers are embedded as `Nat`.  Rust `u8`/`u16` typing is recorded
as explicit bound hypotheses on the theorems; a fallible conversion
(`try_into`) or a fallible register write is an `Except` error, and a Rust
panic (`panic!`/`todo!`, or an overflow of a checked `+` in the default
debug/test profile) is the distinguished error `OpError.panicked`.
-/

/-- Decidable equality of `Except` results, used to evaluate concrete
scenarios. -/
instance {ε α : Type} [DecidableEq ε] [DecidableEq α] :
    DecidableEq (Except ε α) := fun x y =>
  match x, y with
  | .error e1, .error e2 =>
    if h : e1 = e2 then .isTrue (by rw [h]) else .isFalse (by intro hc; cases hc; exact h rfl)
  | .ok a1, .ok a2 =>
    if h : a1 = a2 then .isTrue (by rw [h]) else .isFalse (by intro hc; cases hc; exact h rfl)
  | .error _, .ok _ => .isFalse (by intro hc; cases hc)
  | .ok _, .error _ => .isFalse (by intro hc; cases hc)

namespace Gameboy

/-- Modelled from the spec: the four flag identities Z, N, H, C. -/
inductive Flag where
  | Z
  | N
  | H
  | C
deriving DecidableEq

/-- Modelled from the spec: register identities — eight-bit general
registers, the three combined pairs and the stack pointer.  The program
counter is not addressable through this enum; it is a separate field of the
register file touched only by `CPU.step`'s commit. -/
inductive Register where
  | A
  | B
  | C
  | D
  | E
  | H
  | L
  | BC
  | DE
  | HL
  | SP
deriving DecidableEq

/-- Modelled from the spec: the closed set of operand/addressing shapes.
Only the shapes exercised by the implemented executors matter here; the
rest are carried for completeness of the closed variant set. -/
inductive Operand where
  | Register (r : Register)
  | Immediate8
  | Immediate16
  | RegisterIndirect (r : Register)
  | RegisterIndirectDec (r : Register)
  | RegisterIndirectInc (r : Register)
  | AbsoluteIndirect
  | RelativeDisplacement
deriving DecidableEq

/-- Errors of a CPU operation.  `fail` is an error value returned through
the Rust `Result` (an `anyhow` bail), `panicked` is a Rust panic
(`panic!`, `todo!`, an out-of-bounds index, or an arithmetic overflow
under the checked debug/test profile). -/
inductive OpError where
  | fail (msg : String)
  | panicked (msg : String)
deriving DecidableEq

/-- Modelled from the spec: the four meaningful flag bits of the flags
register; the remaining bits are always zero and are not represented. -/
structure Flags where
  z : Bool
  n : Bool
  h : Bool
  c : Bool
deriving DecidableEq

/-- Modelled from the spec: the register file — seven 8-bit general
registers, the flag set, and the 16-bit stack pointer and program
counter. -/
structure RegisterFile where
  a : Nat
  b : Nat
  c : Nat
  d : Nat
  e : Nat
  h : Nat
  l : Nat
  f : Flags
  sp : Nat
  pc : Nat
deriving DecidableEq

/-- Modelled from the spec: register file reset state (all zero). -/
def RegisterFile.new : RegisterFile :=
  { a := 0, b := 0, c := 0, d := 0, e := 0, h := 0, l := 0
    f := { z := false, n := false, h := false, c := false }
    sp := 0, pc := 0 }

/-- Modelled from the spec: 16-bit read of a register; an 8-bit register
reads as its zero-extended value, a pair reads high register as the most
significant byte. -/
def RegisterFile.read (r : RegisterFile) : Register → Nat
  | .A => r.a
  | .B => r.b
  | .C => r.c
  | .D => r.d
  | .E => r.e
  | .H => r.h
  | .L => r.l
  | .BC => r.b * 256 + r.c
  | .DE => r.d * 256 + r.e
  | .HL => r.h * 256 + r.l
  | .SP => r.sp

/-- Modelled from the spec: 8-bit read of a register; fails on a 16-bit
register identity. -/
def RegisterFile.read8 (r : RegisterFile) : Register → Except OpError Nat
  | .A => .ok r.a
  | .B => .ok r.b
  | .C => .ok r.c
  | .D => .ok r.d
  | .E => .ok r.e
  | .H => .ok r.h
  | .L => .ok r.l
  | _ => .error (.fail "read8 of a 16-bit register")

/-- Modelled from the spec: typed write of a register.  Writing a value
that does not fit an 8-bit destination is the fallible conversion error
visible at the call sites in `cpu.rs`; a pair write splits the value into
high and low bytes (values wrap modulo the register width). -/
def RegisterFile.write (rf : RegisterFile) (reg : Register) (val : Nat) :
    Except OpError RegisterFile :=
  match reg with
  | .A => if val < 256 then .ok { rf with a := val } else .error (.fail "value does not fit u8")
  | .B => if val < 256 then .ok { rf with b := val } else .error (.fail "value does not fit u8")
  | .C => if val < 256 then .ok { rf with c := val } else .error (.fail "value does not fit u8")
  | .D => if val < 256 then .ok { rf with d := val } else .error (.fail "value does not fit u8")
  | .E => if val < 256 then .ok { rf with e := val } else .error (.fail "value does not fit u8")
  | .H => if val < 256 then .ok { rf with h := val } else .error (.fail "value does not fit u8")
  | .L => if val < 256 then .ok { rf with l := val } else .error (.fail "value does not fit u8")
  | .BC => .ok { rf with b := val % 65536 / 256, c := val % 256 }
  | .DE => .ok { rf with d := val % 65536 / 256, e := val % 256 }
  | .HL => .ok { rf with h := val % 65536 / 256, l := val % 256 }
  | .SP => .ok { rf with sp := val % 65536 }

/-- Modelled from the spec: auto-decrement indirect helper — returns the
pair value *before* the decrement, together with the register file holding
the decremented (wrapping modulo 65536) pair.  Fails on a non-pair
register. -/
def RegisterFile.read_dec (rf : RegisterFile) (reg : Register) :
    Except OpError (Nat × RegisterFile) :=
  match reg with
  | .BC =>
    let v := rf.read .BC
    .ok (v, { rf with b := (v + 65535) % 65536 / 256, c := (v + 65535) % 65536 % 256 })
  | .DE =>
    let v := rf.read .DE
    .ok (v, { rf with d := (v + 65535) % 65536 / 256, e := (v + 65535) % 65536 % 256 })
  | .HL =>
    let v := rf.read .HL
    .ok (v, { rf with h := (v + 65535) % 65536 / 256, l := (v + 65535) % 65536 % 256 })
  | _ => .error (.fail "read_dec of a non-pair register")

/-- Modelled from the spec: set a named flag to an explicit value. -/
def Flags.writeOne (fl : Flags) : Flag × Bool → Flags
  | (.Z, v) => { fl with z := v }
  | (.N, v) => { fl with n := v }
  | (.H, v) => { fl with h := v }
  | (.C, v) => { fl with c := v }

/-- Modelled from the spec: set a batch of named flags to explicit values
in one call; flags not named keep their prior value. -/
def RegisterFile.write_flags (rf : RegisterFile) (l : List (Flag × Bool)) :
    RegisterFile :=
  { rf with f := l.foldl Flags.writeOne rf.f }

/-- Modelled from the spec: test a single flag. -/
def RegisterFile.test_flag (rf : RegisterFile) : Flag → Bool
  | .Z => rf.f.z
  | .N => rf.f.n
  | .H => rf.f.h
  | .C => rf.f.c

/-- Modelled from the spec: the bus — a byte-addressed memory space seen
as a total function from addresses to byte values. -/
def Mem : Type := Nat → Nat

/-- Modelled from the spec: the test bus used by the scenarios — the given
byte list placed at the start of the address space, zero elsewhere. -/
def testbus (code : List Nat) : Mem := fun a => code.getD a 0

/-- Modelled from the spec: a bus write, updating one address. -/
def busWrite (m : Mem) (addr v : Nat) : Mem :=
  fun a => if a = addr then v else m a

/-- The instruction identities with a distinct executor in `cpu.rs`: the
two implemented families (`op_ld`, `op_xor`), the deliberately invalid
opcode (`op_invalid`), and the not-yet-implemented executors, all of whose
bodies are `todo!()`. -/
inductive InstrType where
  | ld
  | xorA
  | invalid
  | unimpl
deriving DecidableEq

/-- Modelled from the spec: the static per-opcode descriptor — operand
shapes, encoded length in bytes, cycle cost(s), and the executor
reference (here the executor's identity, dispatched by `execOp`).  The
Rust field holding the executor is named `func`. -/
structure InstructionDef where
  operands : List Operand
  len : Nat
  cycles : List Nat
  func : InstrType
deriving DecidableEq

/-- Modelled from the spec: a decoded instruction — its descriptor, the
immediate operand bytes following the opcode, and its total encoded
length.  The Rust field `def` is a reserved word in Lean and is named
`idef` here. -/
structure Instruction where
  idef : InstructionDef
  imm : List Nat
  len : Nat
deriving DecidableEq

/-- Modelled from the spec: read the idx-th 16-bit immediate,
little-endian (low byte first); fails when the immediate bytes are not
present. -/
def Instruction.imm16 (instr : Instruction) (idx : Nat) : Except OpError Nat :=
  match instr.imm.get? (2 * idx), instr.imm.get? (2 * idx + 1) with
  | some lo, some hi => .ok (hi * 256 + lo)
  | _, _ => .error (.fail "imm16: immediate bytes not available")

/-- Modelled from the spec: the byte iterator over the bus — reading a
byte succeeds while the address stays inside the 16-bit address space and
is a decode fault (truncated stream) past its end. -/
def fetchByte (m : Mem) (addr : Nat) : Except OpError Nat :=
  if addr ≤ 0xFFFF then .ok (m addr % 256)
  else .error (.fail "decode: end of address space")

/-- Modelled from the spec: read `n` consecutive bytes starting at
`addr`. -/
def readBytes (m : Mem) (addr : Nat) : Nat → Except OpError (List Nat)
  | 0 => .ok []
  | n + 1 =>
    match fetchByte m addr with
    | .error e => .error e
    | .ok b =>
      match readBytes m (addr + 1) n with
      | .error e => .error e
      | .ok bs => .ok (b :: bs)

/-- Modelled from the spec: the fixed, documented set of reserved /
undefined primary-table opcodes. -/
def invalidOpcodes : List Nat :=
  [0xD3, 0xDB, 0xDD, 0xE3, 0xE4, 0xEB, 0xEC, 0xED, 0xF4, 0xFC, 0xFD]

/-- Descriptor of the invalid-opcode instruction. -/
def invalidDef : InstructionDef :=
  { operands := [], len := 1, cycles := [0], func := .invalid }

/-- Descriptor of an opcode whose executor is not yet implemented
(`todo!()` in the source); its executor faults before the length or cycle
cost could ever be observed. -/
def unimplDef : InstructionDef :=
  { operands := [], len := 1, cycles := [4], func := .unimpl }

/-- Modelled from the spec: the 256-entry primary opcode table.  The
opcodes exercised by the spec's scenarios carry their full descriptor
(operand shapes, length, declared cycle cost); the reserved set maps to
the invalid-opcode instruction; every other opcode maps to a
not-yet-implemented executor. -/
def mainTable (op : Nat) : InstructionDef :=
  match op with
  | 0x31 => { operands := [.Register .SP, .Immediate16], len := 3, cycles := [12], func := .ld }
  | 0x32 => { operands := [.RegisterIndirectDec .HL, .Register .A], len := 1, cycles := [8], func := .ld }
  | 0x78 => { operands := [.Register .A, .Register .B], len := 1, cycles := [4], func := .ld }
  | 0xA8 => { operands := [.Register .B], len := 1, cycles := [4], func := .xorA }
  | 0xD3 | 0xDB | 0xDD | 0xE3 | 0xE4 | 0xEB | 0xEC | 0xED | 0xF4 | 0xFC | 0xFD => invalidDef
  | _ => unimplDef

/-- Modelled from the spec: the 256-entry extended opcode table (entered
through the reserved extended-opcode byte 0xCB); it covers the bit-test
and shift/rotate families exclusively, all of whose executors are
`todo!()` in the source. -/
def cbTable (_op : Nat) : InstructionDef :=
  { operands := [], len := 2, cycles := [8], func := .unimpl }

/-- Modelled from the spec: decode at an address — read the opcode byte,
branch to the extended table on the reserved extended-opcode byte, and
read the immediate bytes the encoded length requires (failing is the
decode fault).  Pure function of the byte source and the address. -/
def decode (m : Mem) (pc : Nat) : Except OpError Instruction :=
  match fetchByte m pc with
  | .error e => .error e
  | .ok op =>
    if op = 0xCB then
      match fetchByte m (pc + 1) with
      | .error e => .error e
      | .ok op2 => .ok { idef := cbTable op2, imm := [], len := 2 }
    else
      let d := mainTable op
      match readBytes m (pc + 1) (d.len - 1) with
      | .error e => .error e
      | .ok imm => .ok { idef := d, imm := imm, len := d.len }

/-- The Game Boy CPU: the bus, the register file and the running total
cycle counter. -/
structure CPU where
  bus : Mem
  regs : RegisterFile
  cycles : Nat

/-- Result of a successful CPU op function: new program counter and
cycles taken. -/
structure OpOk where
  pc : Nat
  cycles : Nat
deriving DecidableEq

/-- Normal successful op: moves PC past the instruction (`regs.pc +
instr.len as u16`, a checked u16 addition that panics on overflow under
the debug/test profile) and takes the fixed declared cycle count
(`cycles[0]`, an index that panics when absent). -/
def OpOk.ok (cpu : CPU) (instr : Instruction) : Except OpError OpOk :=
  let l16 := instr.len % 65536
  if cpu.regs.pc + l16 < 65536 then
    match instr.idef.cycles.get? 0 with
    | some cy => .ok { pc := cpu.regs.pc + l16, cycles := cy }
    | none => .error (.panicked "index out of bounds")
  else .error (.panicked "attempt to add with overflow")

/-- Package `OpOk.ok` with the (already mutated) CPU state. -/
def okResult (cpu : CPU) (instr : Instruction) : Except OpError OpOk × CPU :=
  (OpOk.ok cpu instr, cpu)

/-- Rust slice indexing: panics when out of bounds. -/
def getOperand (l : List Operand) (i : Nat) : Except OpError Operand :=
  match l.get? i with
  | some o => .ok o
  | none => .error (.panicked "index out of bounds")

/-- Source operand resolution of `op_ld`: `operands[1]` is a 16-bit
immediate, a register read, or a not-yet-implemented shape. -/
def ldSourceVal (cpu : CPU) (instr : Instruction) : Except OpError Nat :=
  match getOperand instr.idef.operands 1 with
  | .error e => .error e
  | .ok .Immediate16 => instr.imm16 0
  | .ok (.Register reg) => .ok (cpu.regs.read reg)
  | .ok _ => .error (.panicked "not yet implemented")

/-- Load register (`op_ld`): resolve the source operand, then write it to
a register destination, or through the auto-decrement indirect destination
(the bus address is the pair value read *before* the decrement, and the
value is narrowed to a byte after the decrement already happened). -/
def opLd (cpu : CPU) (instr : Instruction) : Except OpError OpOk × CPU :=
  match ldSourceVal cpu instr with
  | .error e => (.error e, cpu)
  | .ok val =>
    match getOperand instr.idef.operands 0 with
    | .error e => (.error e, cpu)
    | .ok (.Register dest) =>
      match cpu.regs.write dest val with
      | .error e => (.error e, cpu)
      | .ok regs1 => okResult { cpu with regs := regs1 } instr
    | .ok (.RegisterIndirectDec dest) =>
      match cpu.regs.read_dec dest with
      | .error e => (.error e, cpu)
      | .ok (addr, regs1) =>
        let cpu1 : CPU := { cpu with regs := regs1 }
        if val < 256 then
          okResult { cpu1 with bus := busWrite cpu1.bus addr val } instr
        else (.error (.fail "value does not fit u8"), cpu1)
    | .ok _ => (.error (.fail "Invalid first operand"), cpu)

/-- Bitwise XOR (`op_xor`): XOR the accumulator with a register operand,
write the result back to the accumulator and write the Z flag (and only
the Z flag) from whether the result is zero. -/
def opXor (cpu : CPU) (instr : Instruction) : Except OpError OpOk × CPU :=
  match cpu.regs.read8 .A with
  | .error e => (.error e, cpu)
  | .ok a =>
    match getOperand instr.idef.operands 0 with
    | .error e => (.error e, cpu)
    | .ok (.Register r) =>
      match cpu.regs.read8 r with
      | .error e => (.error e, cpu)
      | .ok val =>
        let result := a ^^^ val
        match cpu.regs.write .A result with
        | .error e => (.error e, cpu)
        | .ok regs1 =>
          okResult { cpu with regs := regs1.write_flags [(.Z, result == 0)] } instr
    | .ok _ => (.error (.panicked "not yet implemented"), cpu)

/-- Invalid opcode (`op_invalid`): always panics. -/
def opInvalid (cpu : CPU) (_instr : Instruction) : Except OpError OpOk × CPU :=
  (.error (.panicked "Invalid opcode"), cpu)

/-- Any executor whose body is `todo!()` in the source: always panics. -/
def opUnimpl (cpu : CPU) (_instr : Instruction) : Except OpError OpOk × CPU :=
  (.error (.panicked "not yet implemented"), cpu)

/-- Dispatch on the instruction descriptor's executor reference. -/
def execOp (t : InstrType) (cpu : CPU) (instr : Instruction) :
    Except OpError OpOk × CPU :=
  match t with
  | .ld => opLd cpu instr
  | .xorA => opXor cpu instr
  | .invalid => opInvalid cpu instr
  | .unimpl => opUnimpl cpu instr

/-- Construct a CPU over a bus (`CPU::new`): fresh register file, zero
total cycles. -/
def CPU.new (bus : Mem) : CPU :=
  { bus := bus, regs := RegisterFile.new, cycles := 0 }

/-- Peek the next instruction (`CPU::peek_next_instr`): decode at the
current program counter against the bus; the receiver is a shared
borrow, so no CPU state can be mutated. -/
def CPU.peek_next_instr (cpu : CPU) : Except OpError Instruction :=
  decode cpu.bus cpu.regs.pc

/-- One step (`CPU::step`): decode, run the executor, and on success
commit the returned program counter and add the returned cycle count to
the running total.  On an error the commit never happens. -/
def CPU.step (cpu : CPU) : Except OpError Unit × CPU :=
  match cpu.peek_next_instr with
  | .error e => (.error e, cpu)
  | .ok instr =>
    match execOp instr.idef.func cpu instr with
    | (.error e, cpu1) => (.error e, cpu1)
    | (.ok result, cpu1) =>
      (.ok (), { cpu1 with
                   regs := { cpu1.regs with pc := result.pc },
                   cycles := cpu1.cycles + result.cycles })

/-- Total amount of cycles (`CPU::get_cycles`). -/
def CPU.get_cycles (cpu : CPU) : Nat :=
  cpu.cycles

/-- The CPU state after a step, keeping the state also when the step
reported an error (the Rust step mutates in place). -/
def stepState (cpu : CPU) : CPU :=
  (CPU.step cpu).2

/-- Iterate `step` a number of times, keeping the state across errors. -/
def stepN : Nat → CPU → CPU
  | 0, cpu => cpu
  | n + 1, cpu => stepN n (stepState cpu)

/-! ### Decoded instructions and concrete machine states of the scenarios -/

/-- The instruction decode produces for opcode 0xA8 (XOR B). -/
def xorBInstr : Instruction :=
  { idef := { operands := [.Register .B], len := 1, cycles := [4], func := .xorA },
    imm := [], len := 1 }

/-- The instruction decode produces for opcode 0x31 (LD SP, imm16) with
immediate bytes `lo`, `hi`. -/
def ldSpImmInstr (lo hi : Nat) : Instruction :=
  { idef := { operands := [.Register .SP, .Immediate16], len := 3, cycles := [12], func := .ld },
    imm := [lo, hi], len := 3 }

/-- The instruction decode produces for opcode 0x32 (LD (HL-), A). -/
def ldHLdecAInstr : Instruction :=
  { idef := { operands := [.RegisterIndirectDec .HL, .Register .A], len := 1, cycles := [8], func := .ld },
    imm := [], len := 1 }

/-- The instruction decode produces for opcode 0x78 (LD A, B). -/
def ldABInstr : Instruction :=
  { idef := { operands := [.Register .A, .Register .B], len := 1, cycles := [4], func := .ld },
    imm := [], len := 1 }

/-- Scenario state: program `[0xA8]` (XOR B) at address 0, A=0x55, B=0xAA. -/
def xorCpu55 : CPU :=
  ⟨testbus [0xA8], { RegisterFile.new with a := 0x55, b := 0xAA }, 0⟩

/-- Scenario state: program `[0xA8]` (XOR B) at address 0, A=0xAA, B=0xAA. -/
def xorCpuAA : CPU :=
  ⟨testbus [0xA8], { RegisterFile.new with a := 0xAA, b := 0xAA }, 0⟩

/-- Scenario state: program `[0xA8]` (XOR B) at address 0, A=0x55, B=0xAA,
and the N, H and C flags all set beforehand. -/
def xorFlagsCpu : CPU :=
  ⟨testbus [0xA8],
   { RegisterFile.new with a := 0x55, b := 0xAA,
                           f := { z := false, n := true, h := true, c := true } }, 0⟩

/-- Scenario state: program `[0x32]` (LD (HL-), A) at address 0, HL=0x1122,
A=0x5A. -/
def ldHLCpu : CPU :=
  ⟨testbus [0x32], { RegisterFile.new with h := 0x11, l := 0x22, a := 0x5A }, 0⟩

/-- Scenario state: the one-byte instruction 0x78 (LD A, B) placed at the
very last address 0xFFFF, with PC = 0xFFFF, exercising the program-counter
wrap-around case. -/
def overflowCpu : CPU :=
  ⟨fun a => if a = 0xFFFF then 0x78 else 0, { RegisterFile.new with pc := 0xFFFF }, 0⟩

/-! ### Helper lemmas -/

/-- XOR of two bytes is a byte. -/
theorem xor_lt_256 {a b : Nat} (ha : a < 256) (hb : b < 256) : a ^^^ b < 256 := by
  have h : Nat.bitwise bne a b < 2 ^ 8 := Nat.bitwise_lt ha hb
  exact h

/-- A successful register write never touches the program counter. -/
theorem write_ok_pc {rf : RegisterFile} {reg : Register} {v : Nat} {rf' : RegisterFile}
    (hw : RegisterFile.write rf reg v = .ok rf') : rf'.pc = rf.pc := by
  cases reg <;> simp only [RegisterFile.write] at hw <;>
    (try split at hw) <;> cases hw <;> rfl

/-- A successful read-and-decrement never touches the program counter. -/
theorem read_dec_ok_pc {rf : RegisterFile} {reg : Register} {v : Nat} {rf' : RegisterFile}
    (hd : RegisterFile.read_dec rf reg = .ok (v, rf')) : rf'.pc = rf.pc := by
  cases reg <;> simp only [RegisterFile.read_dec] at hd <;> cases hd <;> rfl

/-- No executor mutates the program counter or the total cycle counter;
with success or error alike, both are updated only by `CPU.step`'s commit. -/
theorem execOp_frame (t : InstrType) (cpu : CPU) (instr : Instruction) :
    (execOp t cpu instr).2.regs.pc = cpu.regs.pc ∧
    (execOp t cpu instr).2.cycles = cpu.cycles := by
  cases t
  case invalid => exact ⟨rfl, rfl⟩
  case unimpl => exact ⟨rfl, rfl⟩
  case ld =>
    show (opLd cpu instr).2.regs.pc = _ ∧ (opLd cpu instr).2.cycles = _
    rcases hsv : ldSourceVal cpu instr with e | val
    · simp [opLd, hsv]
    · rcases hop : getOperand instr.idef.operands 0 with e | op
      · simp [opLd, hsv, hop]
      · cases op <;> simp only [opLd, hsv, hop] <;> try exact ⟨trivial, trivial⟩
        case Register dest =>
          rcases hw : cpu.regs.write dest val with e | regs1
          · simp [hw]
          · simp [hw, okResult, write_ok_pc hw]
        case RegisterIndirectDec dest =>
          rcases hd : cpu.regs.read_dec dest with e | ⟨addr, regs1⟩
          · simp [hd]
          · by_cases hv : val < 256 <;>
              simp [hd, hv, okResult, read_dec_ok_pc hd]
  case xorA =>
    show (opXor cpu instr).2.regs.pc = _ ∧ (opXor cpu instr).2.cycles = _
    rcases ha : cpu.regs.read8 .A with e | a
    · simp [opXor, ha]
    · rcases hop : getOperand instr.idef.operands 0 with e | op
      · simp [opXor, ha, hop]
      · cases op <;> simp only [opXor, ha, hop] <;> try exact ⟨trivial, trivial⟩
        case Register r =>
          rcases hr : cpu.regs.read8 r with e | val
          · simp [hr]
          · rcases hw : cpu.regs.write .A (a ^^^ val) with e | regs1
            · simp [hr, hw]
            · simp [hr, hw, okResult, RegisterFile.write_flags, write_ok_pc hw]

/-- Behaviour of the XOR executor on the XOR-B instruction. -/
theorem opXor_B (cpu : CPU) (ha : cpu.regs.a < 256) (hb : cpu.regs.b < 256)
    (hpc : cpu.regs.pc + 1 < 65536) :
    opXor cpu xorBInstr =
      (.ok { pc := cpu.regs.pc + 1, cycles := 4 },
       { cpu with regs := { cpu.regs with
                            a := cpu.regs.a ^^^ cpu.regs.b,
                            f := { cpu.regs.f with z := (cpu.regs.a ^^^ cpu.regs.b == 0) } } }) := by
  have hx : cpu.regs.a ^^^ cpu.regs.b < 256 := xor_lt_256 ha hb
  simp only [opXor, xorBInstr, RegisterFile.read8, getOperand, List.get?,
    RegisterFile.write, hx, if_true, RegisterFile.write_flags, List.foldl,
    Flags.writeOne, okResult, OpOk.ok]
  simp [hpc]

/-- Behaviour of the LD executor on LD SP, imm16. -/
theorem opLd_SP (cpu : CPU) (lo hi : Nat) (hpc : cpu.regs.pc + 3 < 65536) :
    opLd cpu (ldSpImmInstr lo hi) =
      (.ok { pc := cpu.regs.pc + 3, cycles := 12 },
       { cpu with regs := { cpu.regs with sp := (hi * 256 + lo) % 65536 } }) := by
  simp only [opLd, ldSourceVal, ldSpImmInstr, getOperand, List.get?,
    Instruction.imm16, RegisterFile.write, okResult, OpOk.ok]
  simp [hpc]

/-- Behaviour of the LD executor on LD A, B. -/
theorem opLd_AB (cpu : CPU) (hb : cpu.regs.b < 256) (hpc : cpu.regs.pc + 1 < 65536) :
    opLd cpu ldABInstr =
      (.ok { pc := cpu.regs.pc + 1, cycles := 4 },
       { cpu with regs := { cpu.regs with a := cpu.regs.b } }) := by
  simp only [opLd, ldSourceVal, ldABInstr, getOperand, List.get?,
    RegisterFile.read, RegisterFile.write, hb, if_true, okResult, OpOk.ok]
  simp [hpc]

/-- Behaviour of the LD executor on LD (HL-), A: the bus write goes to the
pair value before the decrement. -/
theorem opLd_HLdec (cpu : CPU) (ha : cpu.regs.a < 256) (hpc : cpu.regs.pc + 1 < 65536) :
    opLd cpu ldHLdecAInstr =
      (.ok { pc := cpu.regs.pc + 1, cycles := 8 },
       { cpu with regs := { cpu.regs with
                            h := (cpu.regs.read .HL + 65535) % 65536 / 256,
                            l := (cpu.regs.read .HL + 65535) % 65536 % 256 },
                  bus := busWrite cpu.bus (cpu.regs.read .HL) cpu.regs.a }) := by
  simp only [opLd, ldSourceVal, ldHLdecAInstr, getOperand, List.get?,
    RegisterFile.read, RegisterFile.read_dec, ha, if_true, okResult, OpOk.ok]
  simp [hpc, RegisterFile.read]

/-- One full step of the XOR-B program placed at address 0. -/
theorem step_xorB (r : RegisterFile) (cyc : Nat) (hpc : r.pc = 0)
    (ha : r.a < 256) (hb : r.b < 256) :
    CPU.step ⟨testbus [0xA8], r, cyc⟩ =
      (.ok (), ⟨testbus [0xA8],
                { r with a := r.a ^^^ r.b,
                         f := { r.f with z := (r.a ^^^ r.b == 0) },
                         pc := 1 },
                cyc + 4⟩) := by
  have hpeek : CPU.peek_next_instr ⟨testbus [0xA8], r, cyc⟩ = .ok xorBInstr := by
    show decode (testbus [0xA8]) r.pc = _
    rw [hpc]
    rfl
  have hex := opXor_B ⟨testbus [0xA8], r, cyc⟩ ha hb (by simp [hpc])
  unfold CPU.step
  rw [hpeek]
  simp only [hex, execOp]
  simp [hpc, xorBInstr]

/-- One full step of the LD A, B program placed at address 0. -/
theorem step_ldAB (r : RegisterFile) (cyc : Nat) (hpc : r.pc = 0) (hb : r.b < 256) :
    CPU.step ⟨testbus [0x78], r, cyc⟩ =
      (.ok (), ⟨testbus [0x78], { r with a := r.b, pc := 1 }, cyc + 4⟩) := by
  have hpeek : CPU.peek_next_instr ⟨testbus [0x78], r, cyc⟩ = .ok ldABInstr := by
    show decode (testbus [0x78]) r.pc = _
    rw [hpc]
    rfl
  have hex := opLd_AB ⟨testbus [0x78], r, cyc⟩ hb (by simp [hpc])
  unfold CPU.step
  rw [hpeek]
  simp only [hex, execOp]
  simp [hpc, ldABInstr]

/-- One full step of the LD (HL-), A program placed at address 0. -/
theorem step_ldHLdec (r : RegisterFile) (cyc : Nat) (hpc : r.pc = 0) (ha : r.a < 256) :
    CPU.step ⟨testbus [0x32], r, cyc⟩ =
      (.ok (), ⟨busWrite (testbus [0x32]) (r.read .HL) r.a,
                { r with h := (r.read .HL + 65535) % 65536 / 256,
                         l := (r.read .HL + 65535) % 65536 % 256,
                         pc := 1 },
                cyc + 8⟩) := by
  have hpeek : CPU.peek_next_instr ⟨testbus [0x32], r, cyc⟩ = .ok ldHLdecAInstr := by
    show decode (testbus [0x32]) r.pc = _
    rw [hpc]
    rfl
  have hex := opLd_HLdec ⟨testbus [0x32], r, cyc⟩ ha (by simp [hpc])
  unfold CPU.step
  rw [hpeek]
  simp only [hex, execOp]
  simp [hpc, ldHLdecAInstr, RegisterFile.read]

/-- A single step never decreases the total cycle counter, whether it
succeeds or fails. -/
theorem step_cycles_mono (cpu : CPU) : cpu.cycles ≤ (CPU.step cpu).2.cycles := by
  rcases hpeek : cpu.peek_next_instr with de | instr
  · have hstep : CPU.step cpu = (.error de, cpu) := by
      simp only [CPU.step, hpeek]
    rw [hstep]
  · rcases hex : execOp instr.idef.func cpu instr with ⟨res, cpu1⟩
    have hfr := execOp_frame instr.idef.func cpu instr
    rw [hex] at hfr
    have hcyc : cpu1.cycles = cpu.cycles := hfr.2
    rcases res with ee | result
    · have hstep : CPU.step cpu = (.error ee, cpu1) := by
        simp only [CPU.step, hpeek, hex]
      rw [hstep]
      show cpu.cycles ≤ cpu1.cycles
      rw [hcyc]
    · have hstep : CPU.step cpu =
          (.ok (), { cpu1 with regs := { cpu1.regs with pc := result.pc },
                               cycles := cpu1.cycles + result.cycles }) := by
        simp only [CPU.step, hpeek, hex]
      rw [hstep]
      show cpu.cycles ≤ cpu1.cycles + result.cycles
      rw [hcyc]
      exact Nat.le_add_right _ _

/-! ### Claim theorems -/

/-- Claim C1: for every pair of 8-bit values in A and the selected register
(B, selected by opcode 0xA8), after executing XOR the accumulator equals the
bitwise XOR of the two values and the Z flag equals whether the result is
zero; in particular A=0x55, B=0xAA gives A=0xFF with Z false, and A=0xAA,
B=0xAA gives A=0x00 with Z true. -/
theorem xor_correct (r : RegisterFile) (cyc : Nat) (hpc : r.pc = 0)
    (ha : r.a < 256) (hb : r.b < 256) :
    ((CPU.step ⟨testbus [0xA8], r, cyc⟩).1 = .ok () ∧
     (CPU.step ⟨testbus [0xA8], r, cyc⟩).2.regs.a = r.a ^^^ r.b ∧
     (CPU.step ⟨testbus [0xA8], r, cyc⟩).2.regs.test_flag .Z = (r.a ^^^ r.b == 0)) ∧
    ((CPU.step xorCpu55).2.regs.a = 0xFF ∧
     (CPU.step xorCpu55).2.regs.test_flag .Z = false) ∧
    ((CPU.step xorCpuAA).2.regs.a = 0x00 ∧
     (CPU.step xorCpuAA).2.regs.test_flag .Z = true) := by
  refine ⟨?_, by decide, by decide⟩
  rw [step_xorB r cyc hpc ha hb]
  exact ⟨rfl, rfl, rfl⟩

/-- Witness for claim C1 at the concrete input A=0x55, B=0xAA. -/
theorem xor_correct_witness :
    (CPU.step ⟨testbus [0xA8], { RegisterFile.new with a := 0x55, b := 0xAA }, 0⟩).1 = .ok () ∧
    (CPU.step ⟨testbus [0xA8], { RegisterFile.new with a := 0x55, b := 0xAA }, 0⟩).2.regs.a =
      0x55 ^^^ 0xAA ∧
    (CPU.step ⟨testbus [0xA8], { RegisterFile.new with a := 0x55, b := 0xAA }, 0⟩).2.regs.test_flag
      .Z = (0x55 ^^^ 0xAA == 0) :=
  (xor_correct { RegisterFile.new with a := 0x55, b := 0xAA } 0 rfl (by decide) (by decide)).1

/-- Claim C2 evidence: executing XOR does NOT clear the N, H and C flags.
`op_xor` names only Z in its `write_flags` call, so with the prior flag
state N=H=C=1 all three survive the operation, contradicting the claim
(and the spec's documented XOR flag rule). -/
theorem xor_leaves_nhc_set :
    (CPU.step xorFlagsCpu).1 = .ok () ∧
    (CPU.step xorFlagsCpu).2.regs.test_flag .N = true ∧
    (CPU.step xorFlagsCpu).2.regs.test_flag .H = true ∧
    (CPU.step xorFlagsCpu).2.regs.test_flag .C = true := by decide

/-- Claim C3: LD (HL-), A with HL=0x1122 and A=0x5A writes 0x5A to memory
at 0x1122 (the pre-decrement value of HL) and leaves HL at 0x1121; in
general the bus write goes to the pair value before the decrement and HL
becomes its wrapping predecessor. -/
theorem ld_hl_dec_correct (r : RegisterFile) (cyc : Nat) (hpc : r.pc = 0)
    (ha : r.a < 256) :
    ((CPU.step ⟨testbus [0x32], r, cyc⟩).1 = .ok () ∧
     (CPU.step ⟨testbus [0x32], r, cyc⟩).2.bus (r.read .HL) = r.a ∧
     (CPU.step ⟨testbus [0x32], r, cyc⟩).2.regs.read .HL = (r.read .HL + 65535) % 65536) ∧
    ((CPU.step ldHLCpu).2.bus 0x1122 = 0x5A ∧
     (CPU.step ldHLCpu).2.regs.read .HL = 0x1121) := by
  refine ⟨?_, by decide⟩
  rw [step_ldHLdec r cyc hpc ha]
  refine ⟨rfl, ?_, ?_⟩
  · show busWrite (testbus [0x32]) (r.read .HL) r.a (r.read .HL) = r.a
    simp [busWrite]
  · show ((r.read .HL + 65535) % 65536 / 256) * 256 + (r.read .HL + 65535) % 65536 % 256 =
      (r.read .HL + 65535) % 65536
    omega

/-- Witness for claim C3 at the concrete input HL=0x1122, A=0x5A. -/
theorem ld_hl_dec_witness :
    (CPU.step ⟨testbus [0x32], { RegisterFile.new with h := 0x11, l := 0x22, a := 0x5A }, 0⟩).2.bus
      (({ RegisterFile.new with h := 0x11, l := 0x22, a := 0x5A } : RegisterFile).read .HL) =
      0x5A ∧
    (CPU.step
        ⟨testbus [0x32], { RegisterFile.new with h := 0x11, l := 0x22, a := 0x5A }, 0⟩).2.regs.read
      .HL = 0x1121 :=
  ⟨((ld_hl_dec_correct { RegisterFile.new with h := 0x11, l := 0x22, a := 0x5A } 0 rfl
      (by decide)).1).2.1,
   ((ld_hl_dec_correct { RegisterFile.new with h := 0x11, l := 0x22, a := 0x5A } 0 rfl
      (by decide)).2).2⟩

/-- Claim C4: one step on the opcode stream `[0x31, 0x34, 0x12]` at address
0 with PC=0 (LD SP, imm16, little-endian immediate) leaves SP=0x1234, PC=3,
and the total cycle counter equal to the instruction's declared base cycle
cost. -/
theorem ld_sp_imm16_scenario :
    (CPU.step (CPU.new (testbus [0x31, 0x34, 0x12]))).1 = .ok () ∧
    (CPU.step (CPU.new (testbus [0x31, 0x34, 0x12]))).2.regs.sp = 0x1234 ∧
    (CPU.step (CPU.new (testbus [0x31, 0x34, 0x12]))).2.regs.pc = 3 ∧
    (CPU.step (CPU.new (testbus [0x31, 0x34, 0x12]))).2.get_cycles =
      (mainTable 0x31).cycles.getD 0 0 := by decide

/-- Claim C5: step is atomic with respect to its commit — on success PC is
set to the OpResult's next-pc and the cycle counter grows by exactly the
OpResult's cycle count; on any error (decode or execution fault) the error
is reported to the caller and PC and the cycle counter are unchanged. -/
theorem step_atomic (cpu : CPU) :
    (∀ e cpu', CPU.step cpu = (.error e, cpu') →
        cpu'.regs.pc = cpu.regs.pc ∧ cpu'.cycles = cpu.cycles) ∧
    (∀ cpu', CPU.step cpu = (.ok (), cpu') →
        ∃ instr result cpu1,
          cpu.peek_next_instr = .ok instr ∧
          execOp instr.idef.func cpu instr = (.ok result, cpu1) ∧
          cpu'.regs.pc = result.pc ∧
          cpu'.cycles = cpu.cycles + result.cycles) := by
  rcases hpeek : cpu.peek_next_instr with de | instr
  · have hstep : CPU.step cpu = (.error de, cpu) := by
      simp only [CPU.step, hpeek]
    constructor
    · intro e cpu' h
      rw [hstep] at h
      injection h with h1 h2
      subst h2
      exact ⟨rfl, rfl⟩
    · intro cpu' h
      rw [hstep] at h
      injection h with h1 h2
      cases h1
  · rcases hex : execOp instr.idef.func cpu instr with ⟨res, cpu1⟩
    have hfr := execOp_frame instr.idef.func cpu instr
    rw [hex] at hfr
    rcases res with ee | result
    · have hstep : CPU.step cpu = (.error ee, cpu1) := by
        simp only [CPU.step, hpeek, hex]
      constructor
      · intro e cpu' h
        rw [hstep] at h
        injection h with h1 h2
        subst h2
        exact hfr
      · intro cpu' h
        rw [hstep] at h
        injection h with h1 h2
        cases h1
    · have hstep : CPU.step cpu =
          (.ok (), { cpu1 with regs := { cpu1.regs with pc := result.pc },
                               cycles := cpu1.cycles + result.cycles }) := by
        simp only [CPU.step, hpeek, hex]
      constructor
      · intro e cpu' h
        rw [hstep] at h
        injection h with h1 h2
        cases h1
      · intro cpu' h
        rw [hstep] at h
        injection h with h1 h2
        subst h2
        refine ⟨instr, result, cpu1, rfl, hex, rfl, ?_⟩
        show cpu1.cycles + result.cycles = cpu.cycles + result.cycles
        have h2 : cpu1.cycles = cpu.cycles := hfr.2
        rw [h2]

/-- Witness for claim C5: the successful-commit branch at the concrete
LD SP, imm16 program. -/
theorem step_atomic_witness :
    ∃ instr result cpu1,
      (CPU.new (testbus [0x31, 0x34, 0x12])).peek_next_instr = .ok instr ∧
      execOp instr.idef.func (CPU.new (testbus [0x31, 0x34, 0x12])) instr = (.ok result, cpu1) ∧
      (⟨testbus [0x31, 0x34, 0x12], { RegisterFile.new with sp := 0x1234, pc := 3 }, 12⟩ :
        CPU).regs.pc = result.pc ∧
      (⟨testbus [0x31, 0x34, 0x12], { RegisterFile.new with sp := 0x1234, pc := 3 }, 12⟩ :
        CPU).cycles = (CPU.new (testbus [0x31, 0x34, 0x12])).cycles + result.cycles :=
  (step_atomic (CPU.new (testbus [0x31, 0x34, 0x12]))).2
    ⟨testbus [0x31, 0x34, 0x12], { RegisterFile.new with sp := 0x1234, pc := 3 }, 12⟩ rfl

/-- Claim C6: the invalid-opcode executor always fails (never a silent
NOP-like success) for every CPU state; every reserved/undefined opcode
decodes successfully to the invalid-opcode instruction identity rather
than a decode failure, and stepping on one surfaces the fault to the
caller of step with the CPU state unchanged. -/
theorem invalid_opcode_faults :
    (∀ cpu instr, opInvalid cpu instr = (.error (.panicked "Invalid opcode"), cpu)) ∧
    (∀ b, b ∈ invalidOpcodes → (mainTable b).func = .invalid) ∧
    (∀ cpu : CPU, cpu.regs.pc ≤ 0xFFFF → cpu.bus cpu.regs.pc % 256 ∈ invalidOpcodes →
      cpu.peek_next_instr =
        .ok { idef := mainTable (cpu.bus cpu.regs.pc % 256), imm := [], len := 1 } ∧
      CPU.step cpu = (.error (.panicked "Invalid opcode"), cpu)) := by
  refine ⟨fun cpu instr => rfl, ?_, ?_⟩
  · intro b hb
    simp only [invalidOpcodes, List.mem_cons, List.not_mem_nil, or_false] at hb
    rcases hb with rfl | rfl | rfl | rfl | rfl | rfl | rfl | rfl | rfl | rfl | rfl <;> rfl
  · intro cpu h1 h2
    have hfetch : fetchByte cpu.bus cpu.regs.pc = .ok (cpu.bus cpu.regs.pc % 256) := by
      simp [fetchByte, h1]
    simp only [invalidOpcodes, List.mem_cons, List.not_mem_nil, or_false] at h2
    have hpeek : cpu.peek_next_instr =
        .ok { idef := mainTable (cpu.bus cpu.regs.pc % 256), imm := [], len := 1 } := by
      rcases h2 with h | h | h | h | h | h | h | h | h | h | h <;>
        simp only [CPU.peek_next_instr, decode, hfetch, h] <;> rfl
    have hfunc : (mainTable (cpu.bus cpu.regs.pc % 256)).func = .invalid := by
      rcases h2 with h | h | h | h | h | h | h | h | h | h | h <;> rw [h] <;> rfl
    refine ⟨hpeek, ?_⟩
    have hex : execOp (mainTable (cpu.bus cpu.regs.pc % 256)).func cpu
        { idef := mainTable (cpu.bus cpu.regs.pc % 256), imm := [], len := 1 } =
        (.error (.panicked "Invalid opcode"), cpu) := by
      rw [hfunc]
      rfl
    simp only [CPU.step, hpeek]
    rw [hex]

/-- Witness for claim C6 at the reserved opcode 0xD3 placed at address 0. -/
theorem invalid_opcode_witness :
    (CPU.new (testbus [0xD3])).peek_next_instr =
      .ok { idef := mainTable ((CPU.new (testbus [0xD3])).bus
              (CPU.new (testbus [0xD3])).regs.pc % 256), imm := [], len := 1 } ∧
    CPU.step (CPU.new (testbus [0xD3])) =
      (.error (.panicked "Invalid opcode"), CPU.new (testbus [0xD3])) :=
  invalid_opcode_faults.2.2 (CPU.new (testbus [0xD3])) (by decide) (by decide)

/-- Claim C7: decoding is deterministic, idempotent and side-effect-free —
`peek_next_instr` is exactly `decode` applied to the bus and the program
counter (a pure function that mutates nothing), so any two CPUs agreeing
on bus and PC (in particular the same CPU twice against unchanged memory
and registers) decode to identical Instruction values. -/
theorem peek_pure (c1 c2 : CPU) (hbus : c1.bus = c2.bus) (hpc : c1.regs.pc = c2.regs.pc) :
    c1.peek_next_instr = c2.peek_next_instr ∧
    c1.peek_next_instr = decode c1.bus c1.regs.pc := by
  constructor
  · unfold CPU.peek_next_instr
    rw [hbus, hpc]
  · rfl

/-- Witness for claim C7: two identical decodes of the LD SP, imm16
program. -/
theorem peek_pure_witness :
    (CPU.new (testbus [0x31, 0x34, 0x12])).peek_next_instr =
      (CPU.new (testbus [0x31, 0x34, 0x12])).peek_next_instr ∧
    (CPU.new (testbus [0x31, 0x34, 0x12])).peek_next_instr =
      decode (CPU.new (testbus [0x31, 0x34, 0x12])).bus
        (CPU.new (testbus [0x31, 0x34, 0x12])).regs.pc :=
  peek_pure (CPU.new (testbus [0x31, 0x34, 0x12])) (CPU.new (testbus [0x31, 0x34, 0x12])) rfl rfl

/-- Claim C8 evidence: the next-PC computation does NOT wrap modulo 65536.
With PC=0xFFFF and the one-byte LD A, B at 0xFFFF, `OpOk::ok` computes
`regs.pc + instr.len` with a plain (checked) u16 addition, which
overflow-panics instead of wrapping PC to 0x0000: the step reports the
panic and PC stays 0xFFFF. -/
theorem pc_overflow_panics :
    (CPU.step overflowCpu).1 = .error (.panicked "attempt to add with overflow") ∧
    (CPU.step overflowCpu).2.regs.pc = 0xFFFF ∧
    (CPU.step overflowCpu).2.get_cycles = 0 := by decide

/-- Claim C9: LD A, B sets A to B's value and changes nothing else — every
other register, the stack pointer, all four flags and the whole memory
keep their prior values. -/
theorem ld_reg_reg_frame (r : RegisterFile) (cyc : Nat) (hpc : r.pc = 0) (hb : r.b < 256) :
    (CPU.step ⟨testbus [0x78], r, cyc⟩).1 = .ok () ∧
    (CPU.step ⟨testbus [0x78], r, cyc⟩).2.regs.a = r.b ∧
    (CPU.step ⟨testbus [0x78], r, cyc⟩).2.regs.b = r.b ∧
    (CPU.step ⟨testbus [0x78], r, cyc⟩).2.regs.c = r.c ∧
    (CPU.step ⟨testbus [0x78], r, cyc⟩).2.regs.d = r.d ∧
    (CPU.step ⟨testbus [0x78], r, cyc⟩).2.regs.e = r.e ∧
    (CPU.step ⟨testbus [0x78], r, cyc⟩).2.regs.h = r.h ∧
    (CPU.step ⟨testbus [0x78], r, cyc⟩).2.regs.l = r.l ∧
    (CPU.step ⟨testbus [0x78], r, cyc⟩).2.regs.sp = r.sp ∧
    (CPU.step ⟨testbus [0x78], r, cyc⟩).2.regs.f = r.f ∧
    (CPU.step ⟨testbus [0x78], r, cyc⟩).2.bus = testbus [0x78] := by
  rw [step_ldAB r cyc hpc hb]
  exact ⟨rfl, rfl, rfl, rfl, rfl, rfl, rfl, rfl, rfl, rfl, rfl⟩

/-- Witness for claim C9 at the concrete input B=0x55. -/
theorem ld_reg_reg_frame_witness :
    (CPU.step ⟨testbus [0x78], { RegisterFile.new with b := 0x55 }, 0⟩).2.regs.a = 0x55 ∧
    (CPU.step ⟨testbus [0x78], { RegisterFile.new with b := 0x55 }, 0⟩).2.regs.b = 0x55 ∧
    (CPU.step ⟨testbus [0x78], { RegisterFile.new with b := 0x55 }, 0⟩).2.regs.f =
      RegisterFile.new.f :=
  ⟨(ld_reg_reg_frame { RegisterFile.new with b := 0x55 } 0 rfl (by decide)).2.1,
   (ld_reg_reg_frame { RegisterFile.new with b := 0x55 } 0 rfl (by decide)).2.2.1,
   (ld_reg_reg_frame { RegisterFile.new with b := 0x55 } 0 rfl (by decide)).2.2.2.2.2.2.2.2.2.1⟩

/-- Claim C10: a newly constructed CPU has a total cycle count of 0, and
the total cycle counter is monotonically non-decreasing across every
sequence of step calls. -/
theorem cycles_monotone :
    (∀ bus, (CPU.new bus).get_cycles = 0) ∧
    (∀ n cpu, cpu.get_cycles ≤ (stepN n cpu).get_cycles) := by
  refine ⟨fun bus => rfl, ?_⟩
  intro n
  induction n with
  | zero => intro cpu; exact le_refl _
  | succ n ih =>
    intro cpu
    exact le_trans (step_cycles_mono cpu) (ih (stepState cpu))

end Gameboy
